import Mathlib

/-!
Verification of the zone-lookup and plant-matching core of the
rooted-elegance storefront theme.

The development shallowly embeds, over `List Char` / `String`:

* `extractPlantName`, `normalizeZoneFormat`, `needsNormalization` and
  `lookupZones` from `scripts/populate-zones.js`;
* `analyzeZoneFormat` from the audit script;
* `getZoneFromZip` (zone-selector widget, with its embedded
  `ZONE_DATA.zipToZone` table and `ZONE_DATA.zones` temperature table)
  and `getZoneFromLookup` from the lookup test script;
* the second `zipToZone`-style prefix table embedded in
  `assets/zone-selector.js` (`zipToZoneAsset`).

JavaScript string primitives used by those functions (`toLowerCase` on
ASCII, `replace` with the concrete regex/string patterns appearing in the
source, `trim`, `split(' ')`, `includes`, `substring(0,3)`, stable
`sort((a,b) => b.length - a.length)`) are modelled character-exactly on
`List Char`; `\s`, `\d` and `.` follow the ECMAScript character classes.
-/

/-- The ECMAScript whitespace class `\s`, by code point (tab, LF, VT, FF,
CR, space, NBSP, and the Unicode space separators recognised by JS). -/
def jsWs (c : Char) : Bool :=
  c.toNat = 9 || c.toNat = 10 || c.toNat = 11 || c.toNat = 12 || c.toNat = 13 ||
  c.toNat = 32 || c.toNat = 160 || c.toNat = 0x1680 ||
  (0x2000 ≤ c.toNat && c.toNat ≤ 0x200a) ||
  c.toNat = 0x2028 || c.toNat = 0x2029 || c.toNat = 0x202f ||
  c.toNat = 0x205f || c.toNat = 0x3000 || c.toNat = 0xfeff

/-- ECMAScript line terminators; the regex `.` matches everything else. -/
def jsLineTerm (c : Char) : Bool :=
  c.toNat = 10 || c.toNat = 13 || c.toNat = 0x2028 || c.toNat = 0x2029

/-- A character the regex `.` (no `s` flag) matches. -/
def jsDot (c : Char) : Bool := !jsLineTerm c

/-- The regex digit class `\d`. -/
def isDigitC (c : Char) : Bool := 48 ≤ c.toNat && c.toNat ≤ 57

/-- The ASCII upper-to-lower case table behind `String.prototype.toLowerCase`
(the source only ever lowercases product titles and zone strings, whose
case-carrying characters are ASCII). -/
def lowerPairs : List (Char × Char) :=
  [('A', 'a'), ('B', 'b'), ('C', 'c'), ('D', 'd'), ('E', 'e'), ('F', 'f'),
   ('G', 'g'), ('H', 'h'), ('I', 'i'), ('J', 'j'), ('K', 'k'), ('L', 'l'),
   ('M', 'm'), ('N', 'n'), ('O', 'o'), ('P', 'p'), ('Q', 'q'), ('R', 'r'),
   ('S', 's'), ('T', 't'), ('U', 'u'), ('V', 'v'), ('W', 'w'), ('X', 'x'),
   ('Y', 'y'), ('Z', 'z')]

/-- `toLowerCase` on one character. -/
def jsToLower (c : Char) : Char := (List.lookup c lowerPairs).getD c

/-- `toLowerCase` on a character list. -/
def lowerStr (l : List Char) : List Char := l.map jsToLower

/-- The trademark glyphs removed by `replace(/[™®©]/g, '')`. -/
def tmGlyph (c : Char) : Bool := c = '™' || c = '®' || c = '©'

/-- Worker for `collapseWs`: the flag records whether we are inside a
whitespace run whose single replacement space was already emitted. -/
def collapseWsAux : Bool → List Char → List Char
  | _, [] => []
  | inRun, c :: cs =>
    if jsWs c then
      if inRun then collapseWsAux true cs else ' ' :: collapseWsAux true cs
    else c :: collapseWsAux false cs

/-- `replace(/\s+/g, ' ')`: every maximal whitespace run becomes one space. -/
def collapseWs (l : List Char) : List Char := collapseWsAux false l

/-- Leading-whitespace half of `trim()`. -/
def trimLead (l : List Char) : List Char := l.dropWhile jsWs

/-- Trailing-whitespace half of `trim()`. -/
def trimTrail (l : List Char) : List Char := (l.reverse.dropWhile jsWs).reverse

/-- `String.prototype.trim`. -/
def jsTrim (l : List Char) : List Char := trimLead (trimTrail l)

/-- Match a lowercase literal case-insensitively against the front of `s`
and return the rest, as the `/i` regexes do. -/
def ciStrip : List Char → List Char → Option (List Char)
  | [], s => some s
  | _ :: _, [] => none
  | p :: ps, c :: cs => if jsToLower c = p then ciStrip ps cs else none

/-- Every character is one the regex `.` matches (the `.*$` tails). -/
def allDot (l : List Char) : Bool := l.all jsDot

/-- The size-unit alternation `(gal|gallon|qt|quart|inch|in|ft|feet|pack|ct)`
from the first and third suffix patterns of `extractPlantName`. -/
def unitWords : List (List Char) :=
  ["gal".data, "gallon".data, "qt".data, "quart".data, "inch".data,
   "in".data, "ft".data, "feet".data, "pack".data, "ct".data]

/-- The suffix language `\d+\s*(gal|…|ct).*$` shared by suffix patterns 1
and 3: a digit run, optional whitespace, a unit word, then anything `.`
matches up to the end. -/
def numUnitTail (s : List Char) : Bool :=
  match s with
  | [] => false
  | c :: cs =>
    isDigitC c &&
      (let rest := (cs.dropWhile isDigitC).dropWhile jsWs
       unitWords.any fun u =>
         match ciStrip u rest with
         | some r => allDot r
         | none => false)

/-- Suffix pattern 1, `/\s*-\s*\d+\s*(gal|gallon|qt|quart|inch|in|ft|feet|pack|ct).*$/i`. -/
def sfxDashNumUnit (s : List Char) : Bool :=
  match s.dropWhile jsWs with
  | '-' :: rest => numUnitTail (rest.dropWhile jsWs)
  | _ => false

/-- Suffix pattern 2, `/\s*\(\d+.*?\)$/`: optional whitespace, an opening
parenthesis, at least one digit, then `.`-matched characters up to a
closing parenthesis that ends the string. -/
def sfxParenNum (s : List Char) : Bool :=
  match s.dropWhile jsWs with
  | '(' :: c :: rest =>
    isDigitC c && rest.getLast? == some ')' && allDot rest.dropLast
  | _ => false

/-- Suffix pattern 3, `/\s*\d+\s*(gal|gallon|qt|quart|inch|in|ft|feet|pack|ct).*$/i`. -/
def sfxNumUnit (s : List Char) : Bool := numUnitTail (s.dropWhile jsWs)

/-- Suffix pattern 4, `/\s*bare\s*root.*$/i`. -/
def sfxBareRoot (s : List Char) : Bool :=
  match ciStrip "bare".data (s.dropWhile jsWs) with
  | some r =>
    match ciStrip "root".data (r.dropWhile jsWs) with
    | some r2 => allDot r2
    | none => false
  | none => false

/-- Suffix pattern 5, `/\s*potted.*$/i`. -/
def sfxPotted (s : List Char) : Bool :=
  match ciStrip "potted".data (s.dropWhile jsWs) with
  | some r => allDot r
  | none => false

/-- The shape of suffix patterns 6 to 8, `/\s*WORD\s*$/i`. -/
def wordEndSfx (w : List Char) (s : List Char) : Bool :=
  match ciStrip w (s.dropWhile jsWs) with
  | some r => r.all jsWs
  | none => false

/-- Suffix pattern 6, `/\s*tree\s*$/i`. -/
def sfxTree (s : List Char) : Bool := wordEndSfx "tree".data s

/-- Suffix pattern 7, `/\s*shrub\s*$/i`. -/
def sfxShrub (s : List Char) : Bool := wordEndSfx "shrub".data s

/-- Suffix pattern 8, `/\s*plant\s*$/i`. -/
def sfxPlant (s : List Char) : Bool := wordEndSfx "plant".data s

/-- Kept prefix for `replace(pat, '')` when every match of `pat` runs to the
end of the string (true of all eight suffix patterns, which end in `$` or
`.*$`): the leftmost match starts at the least index whose suffix lies in
the pattern's language, and replacing it truncates there.  `none` when no
suffix matches. -/
def truncAt (L : List Char → Bool) : List Char → Option (List Char)
  | [] => if L [] then some [] else none
  | c :: cs => if L (c :: cs) then some [] else (truncAt L cs).map (fun t => c :: t)

/-- One `cleanTitle.replace(pattern, '')` step of `extractPlantName`. -/
def applyPat (L : List Char → Bool) (s : List Char) : List Char :=
  (truncAt L s).getD s

/-- The ordered `suffixPatterns` list of `extractPlantName`. -/
def suffixPatternsL : List (List Char → Bool) :=
  [sfxDashNumUnit, sfxParenNum, sfxNumUnit, sfxBareRoot, sfxPotted,
   sfxTree, sfxShrub, sfxPlant]

/-- The `for (const pattern of suffixPatterns) cleanTitle = cleanTitle.replace(pattern, '')` loop. -/
def suffixPass (s : List Char) : List Char :=
  suffixPatternsL.foldl (fun acc L => applyPat L acc) s

/-- The normalisation head of `extractPlantName`:
`title.toLowerCase().replace(/[™®©]/g, '').replace(/\s+/g, ' ').trim()`. -/
def normalizeTitle (l : List Char) : List Char :=
  jsTrim (collapseWs ((lowerStr l).filter fun c => !tmGlyph c))

/-- `extractPlantName` from `scripts/populate-zones.js`: normalise the
title, apply the eight suffix patterns in order, and `trim()`. -/
def extractPlantName (title : String) : String :=
  ⟨jsTrim (suffixPass (normalizeTitle title.data))⟩

/-- `str.replace(pat, '')` for a plain-string `pat`: remove the leftmost
occurrence, if any. -/
def removeFirst (pat : List Char) : List Char → List Char
  | [] => []
  | c :: cs =>
    if pat.isPrefixOf (c :: cs) then (c :: cs).drop pat.length
    else c :: removeFirst pat cs

/-- One element of `normalizeZoneFormat`:
`zone.toLowerCase().replace('zone', '').replace('-', '').replace(' ', '').trim()`. -/
def normalizeZoneEntry (z : String) : String :=
  ⟨jsTrim (removeFirst " ".data (removeFirst "-".data
    (removeFirst "zone".data (lowerStr z.data))))⟩

/-- `normalizeZoneFormat` from `scripts/populate-zones.js`. -/
def normalizeZoneFormat (zones : List String) : List String :=
  zones.map normalizeZoneEntry

/-- `String.prototype.includes`: `pat` occurs as a contiguous substring. -/
def hasSubstr (pat : List Char) : List Char → Bool
  | [] => pat.isEmpty
  | c :: cs => pat.isPrefixOf (c :: cs) || hasSubstr pat cs

/-- `s.includes(pat)` at the `String` level. -/
def strIncludes (s pat : String) : Bool := hasSubstr pat.data s.data

/-- `needsNormalization` from `scripts/populate-zones.js`: some zone string
contains "zone" case-insensitively (the zones metafield always decodes to
strings, so the source's `typeof z === 'string'` guard holds). -/
def needsNormalization (zones : List String) : Bool :=
  zones.any fun z => hasSubstr "zone".data (lowerStr z.data)

/-- The `matchType` tags of `lookupZones` ('partial' is `partialM`). -/
inductive MatchType where
  | exact
  | contains
  | partialM
  | botanical
deriving DecidableEq

/-- The result object of `lookupZones`. -/
structure MatchResult where
  zones : List String
  matchType : MatchType
  matchedKey : Option String := none
  matchedWord : Option String := none
deriving DecidableEq

/-- Stable insertion for `sortByLenDesc`: `a` moves ahead only of strictly
shorter keys, so ties keep their original order, as the ES2019 stable
`sort((a, b) => b.length - a.length)` does. -/
def insertByLen (a : String) : List String → List String
  | [] => [a]
  | b :: bs => if b.length < a.length then a :: b :: bs else b :: insertByLen a bs

/-- `[...plantKeys].sort((a, b) => b.length - a.length)`. -/
def sortByLenDesc (l : List String) : List String := l.foldr insertByLen []

/-- The fixed botanical-term allow-list of `lookupZones`. -/
def botanicalTerms : List String :=
  ["magnolia", "maple", "oak", "pine", "spruce", "cedar", "cypress", "arborvitae",
   "dogwood", "redbud", "cherry", "crape", "crepe", "myrtle", "birch", "willow",
   "elm", "ash", "tulip", "ginkgo", "sweetgum", "sycamore", "locust", "beech",
   "hickory", "walnut", "chestnut", "hazelnut", "catalpa", "boxwood", "holly",
   "privet", "hydrangea", "lilac", "azalea", "rhododendron", "camellia", "gardenia",
   "forsythia", "hibiscus", "butterfly", "spirea", "viburnum", "barberry", "weigela",
   "ninebark", "juniper", "yew", "hemlock", "fir", "palm", "serviceberry", "fringe",
   "blueberry", "elderberry", "beautyberry", "clethra", "photinia", "nandina",
   "loropetalum", "laurel", "pieris", "leucothoe", "aucuba", "osmanthus", "fatsia",
   "podocarpus", "deutzia", "kerria", "potentilla", "cotoneaster", "abelia",
   "sweetspire", "fothergilla", "snowberry", "coralberry", "jasmine", "lantana",
   "muhly", "mondo", "liriope", "daylily", "oleander", "mahonia", "pittosporum",
   "distylium", "guava", "yucca", "ligustrum", "dianella", "agapanthus", "sage"]

/-- `plantName.split(' ')` (single-space separator; empty fields kept). -/
def splitSp : List Char → List (List Char)
  | [] => [[]]
  | c :: cs =>
    if c = ' ' then [] :: splitSp cs
    else
      match splitSp cs with
      | w :: ws => (c :: w) :: ws
      | [] => [[c]]

/-- `plantName.split(' ')` at the `String` level. -/
def splitWords (s : String) : List String := (splitSp s.data).map fun l => (⟨l⟩ : String)

/-- The word loop of the botanical fallback: for each word (already
filtered to length > 4, in title order) that is in the allow-list, scan
the length-sorted keys for one containing it. -/
def botanicalScan (plants : List (String × List String)) (sorted : List String) :
    List String → Option MatchResult
  | [] => none
  | w :: ws =>
    if botanicalTerms.contains w then
      match sorted.find? (fun key => strIncludes key w) with
      | some key =>
        some { zones := (List.lookup key plants).getD [], matchType := .botanical,
               matchedKey := some key, matchedWord := some w }
      | none => botanicalScan plants sorted ws
    else botanicalScan plants sorted ws

/-- `lookupZones` from `scripts/populate-zones.js`, with the loaded
`plantDatabase.plants` object passed explicitly as an association list from
canonical name to its `zones` array (the JSON object has no duplicate
keys). The four tiers in source order: exact key, longest key contained in
the name (length at least 5), name contained in a key (name length at
least 6), and the botanical-term fallback over words longer than 4. -/
def lookupZones (plants : List (String × List String)) (plantName : String) :
    Option MatchResult :=
  match List.lookup plantName plants with
  | some zs => some { zones := zs, matchType := .exact }
  | none =>
    let plantKeys := plants.map Prod.fst
    let sortedByLength := sortByLenDesc plantKeys
    match sortedByLength.find? (fun key => strIncludes plantName key && 5 ≤ key.length) with
    | some key =>
      some { zones := (List.lookup key plants).getD [], matchType := .contains,
             matchedKey := some key }
    | none =>
      match plantKeys.find? (fun key => strIncludes key plantName && 6 ≤ plantName.length) with
      | some key =>
        some { zones := (List.lookup key plants).getD [], matchType := .partialM,
               matchedKey := some key }
      | none =>
        botanicalScan plants sortedByLength
          ((splitWords plantName).filter fun w => 4 < w.length)

/-- The audit labels of `analyzeZoneFormat`. -/
inductive ZoneFormat where
  | none
  | old
  | new
  | mixed
deriving DecidableEq

/-- `analyzeZoneFormat` from the audit script: `Option.none` models a
product without the zones metafield (`zones` null). -/
def analyzeZoneFormat : Option (List String) → ZoneFormat
  | Option.none => ZoneFormat.none
  | Option.some zones =>
    if zones.length = 0 then ZoneFormat.none
    else
      let hasOldFormat := zones.any fun z => hasSubstr "zone".data (lowerStr z.data)
      let hasNewFormat := zones.any fun z => !hasSubstr "zone".data (lowerStr z.data)
      if hasOldFormat && hasNewFormat then ZoneFormat.mixed
      else if hasOldFormat then ZoneFormat.old
      else ZoneFormat.new
/-- The zone code and temperature range returned by the zone-selector
widget (label as in the `ZONE_DATA.zones` entries). -/
structure ZoneRange where
  min : Int
  max : Int
  label : String
deriving DecidableEq

/-- The `ZONE_DATA.zones` temperature table of the zone-selector widget. -/
def zonesTable : List (String × ZoneRange) := [
  ("1a", ⟨-60, -55, "1a"⟩),
  ("1b", ⟨-55, -50, "1b"⟩),
  ("2a", ⟨-50, -45, "2a"⟩),
  ("2b", ⟨-45, -40, "2b"⟩),
  ("3a", ⟨-40, -35, "3a"⟩),
  ("3b", ⟨-35, -30, "3b"⟩),
  ("4a", ⟨-30, -25, "4a"⟩),
  ("4b", ⟨-25, -20, "4b"⟩),
  ("5a", ⟨-20, -15, "5a"⟩),
  ("5b", ⟨-15, -10, "5b"⟩),
  ("6a", ⟨-10, -5, "6a"⟩),
  ("6b", ⟨-5, 0, "6b"⟩),
  ("7a", ⟨0, 5, "7a"⟩),
  ("7b", ⟨5, 10, "7b"⟩),
  ("8a", ⟨10, 15, "8a"⟩),
  ("8b", ⟨15, 20, "8b"⟩),
  ("9a", ⟨20, 25, "9a"⟩),
  ("9b", ⟨25, 30, "9b"⟩),
  ("10a", ⟨30, 35, "10a"⟩),
  ("10b", ⟨35, 40, "10b"⟩),
  ("11a", ⟨40, 45, "11a"⟩),
  ("11b", ⟨45, 50, "11b"⟩),
  ("12a", ⟨50, 55, "12a"⟩),
  ("12b", ⟨55, 60, "12b"⟩),
  ("13a", ⟨60, 65, "13a"⟩),
  ("13b", ⟨65, 70, "13b"⟩) ]

/-- The `ZONE_DATA.zipToZone` prefix table embedded in the zone-selector
widget variant of the unnamed sources (the one carrying its own data). -/
def zipToZone : List (String × String) := [
  ("010", "5b"), ("011", "5b"), ("012", "5a"), ("013", "5b"),
  ("014", "6a"), ("015", "6a"), ("016", "6a"), ("017", "6b"),
  ("018", "6b"), ("019", "6a"), ("020", "6b"), ("021", "6b"),
  ("022", "6b"), ("023", "6a"), ("024", "6a"), ("025", "6a"),
  ("026", "5b"), ("027", "5b"), ("100", "7a"), ("101", "7a"),
  ("102", "6b"), ("103", "6b"), ("104", "6b"), ("105", "6b"),
  ("106", "6b"), ("107", "6a"), ("108", "6a"), ("109", "5b"),
  ("110", "7a"), ("111", "7a"), ("112", "7a"), ("113", "7a"),
  ("114", "7b"), ("115", "7b"), ("116", "7a"), ("117", "7a"),
  ("118", "7a"), ("119", "7a"), ("120", "5b"), ("121", "5b"),
  ("122", "5a"), ("123", "5a"), ("124", "5b"), ("125", "5b"),
  ("126", "5b"), ("127", "6a"), ("128", "4b"), ("129", "5a"),
  ("130", "5a"), ("131", "5a"), ("132", "5a"), ("133", "5b"),
  ("134", "5b"), ("135", "5b"), ("136", "5b"), ("137", "6a"),
  ("138", "5b"), ("139", "5b"), ("140", "6a"), ("141", "6a"),
  ("142", "6a"), ("143", "5b"), ("144", "5b"), ("145", "5b"),
  ("146", "5b"), ("147", "5b"), ("148", "5b"), ("149", "5b"),
  ("150", "6b"), ("151", "6b"), ("152", "6a"), ("153", "6a"),
  ("154", "6a"), ("155", "6a"), ("156", "6a"), ("157", "6b"),
  ("158", "6a"), ("159", "6a"), ("160", "6a"), ("161", "6a"),
  ("162", "5b"), ("163", "5b"), ("164", "5b"), ("165", "6a"),
  ("166", "6a"), ("167", "6a"), ("168", "6a"), ("169", "6a"),
  ("170", "6b"), ("171", "6b"), ("172", "6b"), ("173", "6b"),
  ("174", "6b"), ("175", "6b"), ("176", "6b"), ("177", "6b"),
  ("178", "6b"), ("179", "6b"), ("180", "6b"), ("181", "6a"),
  ("182", "5b"), ("183", "6a"), ("184", "6a"), ("185", "6a"),
  ("186", "5b"), ("187", "6a"), ("188", "6b"), ("189", "6b"),
  ("190", "7a"), ("191", "7a"), ("192", "7a"), ("193", "6b"),
  ("194", "7a"), ("195", "7a"), ("196", "7a"), ("197", "7a"),
  ("198", "7a"), ("199", "7a"), ("200", "7a"), ("201", "7a"),
  ("202", "7a"), ("203", "7a"), ("204", "7a"), ("205", "7a"),
  ("206", "7a"), ("207", "7a"), ("208", "7a"), ("209", "7a"),
  ("210", "7a"), ("211", "7a"), ("212", "7a"), ("213", "7a"),
  ("214", "7b"), ("215", "7a"), ("216", "7a"), ("217", "6b"),
  ("218", "6b"), ("219", "6b"), ("220", "7a"), ("221", "7a"),
  ("222", "7a"), ("223", "7a"), ("224", "7a"), ("225", "7a"),
  ("226", "7a"), ("227", "7a"), ("228", "7a"), ("229", "7b"),
  ("230", "7a"), ("231", "7b"), ("232", "7b"), ("233", "8a"),
  ("234", "7b"), ("235", "8a"), ("236", "8a"), ("237", "7b"),
  ("238", "7a"), ("239", "7a"), ("240", "6b"), ("241", "6b"),
  ("242", "6b"), ("243", "6b"), ("244", "6b"), ("245", "6b"),
  ("246", "6b"), ("247", "6b"), ("248", "6a"), ("249", "6b"),
  ("270", "7b"), ("271", "7b"), ("272", "7b"), ("273", "7b"),
  ("274", "7b"), ("275", "7b"), ("276", "7a"), ("277", "7b"),
  ("278", "7a"), ("279", "7a"), ("280", "8a"), ("281", "8a"),
  ("282", "7b"), ("283", "8a"), ("284", "8a"), ("285", "8a"),
  ("286", "7b"), ("287", "7b"), ("288", "7a"), ("289", "7b"),
  ("290", "8a"), ("291", "8a"), ("292", "8a"), ("293", "8a"),
  ("294", "8a"), ("295", "8b"), ("296", "8a"), ("297", "7b"),
  ("298", "8a"), ("299", "8b"), ("300", "7b"), ("301", "8a"),
  ("302", "8a"), ("303", "7b"), ("304", "8a"), ("305", "8a"),
  ("306", "8a"), ("307", "8a"), ("308", "8a"), ("309", "8a"),
  ("310", "8a"), ("311", "8a"), ("312", "8b"), ("313", "8b"),
  ("314", "8b"), ("315", "8b"), ("316", "8b"), ("317", "8b"),
  ("318", "9a"), ("319", "9a"), ("320", "8b"), ("321", "9a"),
  ("322", "9a"), ("323", "9b"), ("324", "9a"), ("325", "9a"),
  ("326", "9a"), ("327", "9b"), ("328", "9b"), ("329", "10a"),
  ("330", "10a"), ("331", "10a"), ("332", "10b"), ("333", "10b"),
  ("334", "10b"), ("335", "10a"), ("336", "10a"), ("337", "10a"),
  ("338", "10a"), ("339", "10a"), ("340", "10b"), ("341", "10a"),
  ("342", "9b"), ("344", "9b"), ("346", "9b"), ("347", "9b"),
  ("349", "9a"), ("430", "6a"), ("431", "5b"), ("432", "6a"),
  ("433", "6a"), ("434", "5b"), ("435", "5b"), ("436", "5b"),
  ("437", "5b"), ("438", "5b"), ("439", "5b"), ("440", "6a"),
  ("441", "6a"), ("442", "6a"), ("443", "5b"), ("444", "5b"),
  ("445", "6a"), ("446", "5b"), ("447", "6a"), ("448", "6a"),
  ("449", "6a"), ("450", "6a"), ("451", "6a"), ("452", "6a"),
  ("453", "6a"), ("454", "5b"), ("455", "6a"), ("456", "6a"),
  ("457", "6a"), ("458", "6a"), ("459", "6a"), ("480", "6a"),
  ("481", "6a"), ("482", "6a"), ("483", "6a"), ("484", "5b"),
  ("485", "5b"), ("486", "5b"), ("487", "5b"), ("488", "5b"),
  ("489", "5b"), ("490", "5b"), ("491", "5b"), ("492", "5b"),
  ("493", "5a"), ("494", "5a"), ("495", "5a"), ("496", "5a"),
  ("497", "4b"), ("498", "4b"), ("499", "4b"), ("600", "5b"),
  ("601", "5b"), ("602", "5b"), ("603", "5b"), ("604", "5b"),
  ("605", "5b"), ("606", "5b"), ("607", "5b"), ("608", "5a"),
  ("609", "5b"), ("610", "5b"), ("611", "5a"), ("612", "5a"),
  ("613", "5a"), ("614", "5b"), ("615", "5b"), ("616", "5b"),
  ("617", "5b"), ("618", "6a"), ("619", "5b"), ("620", "5b"),
  ("621", "5b"), ("622", "6a"), ("623", "6a"), ("624", "6a"),
  ("625", "5b"), ("626", "5b"), ("627", "6a"), ("628", "6a"),
  ("629", "6b"), ("750", "8a"), ("751", "8a"), ("752", "8a"),
  ("753", "8a"), ("754", "8a"), ("755", "8a"), ("756", "8a"),
  ("757", "8a"), ("758", "8b"), ("759", "8a"), ("760", "7b"),
  ("761", "8a"), ("762", "8a"), ("763", "8a"), ("764", "8a"),
  ("765", "8a"), ("766", "7b"), ("767", "7b"), ("768", "7b"),
  ("769", "7b"), ("770", "9a"), ("771", "9a"), ("772", "9a"),
  ("773", "9a"), ("774", "9a"), ("775", "9a"), ("776", "9a"),
  ("777", "9a"), ("778", "9b"), ("779", "9a"), ("780", "9a"),
  ("781", "9a"), ("782", "9a"), ("783", "9b"), ("784", "9b"),
  ("785", "9b"), ("786", "9b"), ("787", "8b"), ("788", "8b"),
  ("789", "8a"), ("790", "7a"), ("791", "7a"), ("792", "7a"),
  ("793", "7a"), ("794", "7a"), ("795", "7a"), ("796", "7b"),
  ("797", "7b"), ("798", "8a"), ("799", "7b"), ("900", "10b"),
  ("901", "10b"), ("902", "10b"), ("903", "10a"), ("904", "10a"),
  ("905", "10b"), ("906", "10b"), ("907", "10a"), ("908", "10a"),
  ("909", "9b"), ("910", "10a"), ("911", "10a"), ("912", "10a"),
  ("913", "10a"), ("914", "9b"), ("915", "9b"), ("916", "9b"),
  ("917", "9b"), ("918", "10a"), ("919", "9b"), ("920", "10b"),
  ("921", "10b"), ("922", "9b"), ("923", "9b"), ("924", "9b"),
  ("925", "9b"), ("926", "10a"), ("927", "10a"), ("928", "10a"),
  ("929", "9a"), ("930", "9b"), ("931", "9a"), ("932", "9a"),
  ("933", "9a"), ("934", "9b"), ("935", "8b"), ("936", "9a"),
  ("937", "9a"), ("938", "9a"), ("939", "9b"), ("940", "10a"),
  ("941", "10a"), ("942", "10a"), ("943", "9b"), ("944", "10a"),
  ("945", "10a"), ("946", "10a"), ("947", "10a"), ("948", "9b"),
  ("949", "9b"), ("950", "9b"), ("951", "9b"), ("952", "9a"),
  ("953", "9b"), ("954", "9a"), ("955", "9a"), ("956", "9a"),
  ("957", "9a"), ("958", "9a"), ("959", "9a"), ("960", "9a"),
  ("961", "8b"), ("980", "8b"), ("981", "8b"), ("982", "8b"),
  ("983", "8a"), ("984", "8a"), ("985", "8b"), ("986", "6b"),
  ("987", "6b"), ("988", "6a"), ("989", "6a"), ("990", "6b"),
  ("991", "6a"), ("992", "6a"), ("993", "5b"), ("994", "5b"),
  ("970", "8b"), ("971", "8b"), ("972", "8b"), ("973", "8b"),
  ("974", "8a"), ("975", "8a"), ("976", "7b"), ("977", "6b"),
  ("978", "6b"), ("979", "6a"), ("800", "5b"), ("801", "5b"),
  ("802", "5a"), ("803", "5a"), ("804", "5a"), ("805", "5a"),
  ("806", "5a"), ("807", "4b"), ("808", "4b"), ("809", "4b"),
  ("810", "5b"), ("811", "5a"), ("812", "4b"), ("813", "4b"),
  ("814", "4b"), ("815", "4b"), ("816", "5a"), ("850", "9b"),
  ("851", "9b"), ("852", "9b"), ("853", "9a"), ("855", "8a"),
  ("856", "9a"), ("857", "8a"), ("859", "7a"), ("860", "9a"),
  ("863", "9b"), ("864", "8b"), ("865", "8b") ]

/-- The second in-repo copy of the ZIP-prefix table: the `'740'`-`'999'`
block embedded in `assets/zone-selector.js`. -/
def zipToZoneAsset : List (String × String) := [
  ("740", "7a"), ("741", "7b"), ("742", "7b"), ("743", "7a"),
  ("744", "7b"), ("745", "7b"), ("746", "7a"), ("747", "8a"),
  ("748", "7b"), ("749", "7b"), ("750", "8b"), ("751", "8b"),
  ("752", "8b"), ("753", "8b"), ("754", "8b"), ("755", "8b"),
  ("756", "8b"), ("757", "8b"), ("758", "8b"), ("759", "9a"),
  ("760", "8b"), ("761", "8b"), ("762", "8a"), ("763", "8a"),
  ("764", "8a"), ("765", "8b"), ("766", "8b"), ("767", "8b"),
  ("768", "8b"), ("769", "8a"), ("770", "9b"), ("771", "9b"),
  ("772", "9b"), ("773", "9a"), ("774", "9b"), ("775", "9b"),
  ("776", "9a"), ("777", "9b"), ("778", "9a"), ("779", "9b"),
  ("780", "9a"), ("781", "9a"), ("782", "9a"), ("783", "9b"),
  ("784", "10a"), ("785", "10a"), ("786", "9a"), ("787", "9a"),
  ("788", "9a"), ("789", "9a"), ("790", "7a"), ("791", "7a"),
  ("792", "7b"), ("793", "7b"), ("794", "7b"), ("795", "8a"),
  ("796", "8a"), ("797", "8a"), ("798", "8b"), ("799", "8b"),
  ("800", "6a"), ("801", "6a"), ("802", "6a"), ("803", "6a"),
  ("804", "5b"), ("805", "5b"), ("806", "5b"), ("807", "5b"),
  ("808", "5b"), ("809", "6a"), ("810", "6a"), ("811", "5b"),
  ("812", "5b"), ("813", "6b"), ("814", "6b"), ("815", "7a"),
  ("816", "6a"), ("817", "5b"), ("818", "5b"), ("819", "5b"),
  ("820", "5b"), ("821", "4b"), ("822", "5a"), ("823", "5a"),
  ("824", "5a"), ("825", "5a"), ("826", "5a"), ("827", "4b"),
  ("828", "5a"), ("829", "5a"), ("830", "4b"), ("831", "5b"),
  ("832", "5b"), ("833", "6b"), ("834", "5a"), ("835", "6b"),
  ("836", "7a"), ("837", "7a"), ("838", "6b"), ("839", "6b"),
  ("840", "7a"), ("841", "7b"), ("842", "7a"), ("843", "6a"),
  ("844", "7a"), ("845", "6a"), ("846", "6a"), ("847", "6a"),
  ("848", "7b"), ("849", "8b"), ("850", "10a"), ("851", "9a"),
  ("852", "9b"), ("853", "9b"), ("854", "9a"), ("855", "8b"),
  ("856", "8b"), ("857", "9b"), ("858", "8a"), ("859", "6b"),
  ("860", "7a"), ("861", "7b"), ("862", "8a"), ("863", "8b"),
  ("864", "9b"), ("865", "7a"), ("866", "6b"), ("867", "6b"),
  ("868", "6b"), ("869", "6b"), ("870", "6b"), ("871", "7b"),
  ("872", "6b"), ("873", "6a"), ("874", "7a"), ("875", "6b"),
  ("876", "7b"), ("877", "6a"), ("878", "7b"), ("879", "8a"),
  ("880", "8b"), ("881", "7a"), ("882", "8a"), ("883", "7a"),
  ("884", "7a"), ("885", "8b"), ("886", "8b"), ("887", "8b"),
  ("888", "8a"), ("889", "9a"), ("890", "9b"), ("891", "9b"),
  ("892", "7b"), ("893", "6a"), ("894", "7a"), ("895", "7b"),
  ("896", "7b"), ("897", "7a"), ("898", "5b"), ("899", "8a"),
  ("900", "10b"), ("901", "10b"), ("902", "10b"), ("903", "10b"),
  ("904", "11a"), ("905", "10b"), ("906", "10b"), ("907", "10b"),
  ("908", "10b"), ("909", "10b"), ("910", "10a"), ("911", "10a"),
  ("912", "10a"), ("913", "10a"), ("914", "10a"), ("915", "10a"),
  ("916", "10a"), ("917", "10a"), ("918", "10a"), ("919", "10b"),
  ("920", "10a"), ("921", "10b"), ("922", "10a"), ("923", "8b"),
  ("924", "10a"), ("925", "9b"), ("926", "10b"), ("927", "10b"),
  ("928", "10b"), ("929", "10b"), ("930", "10a"), ("931", "10b"),
  ("932", "9b"), ("933", "9b"), ("934", "10a"), ("935", "8b"),
  ("936", "9b"), ("937", "9b"), ("938", "9b"), ("939", "9b"),
  ("940", "10a"), ("941", "10b"), ("942", "9b"), ("943", "9b"),
  ("944", "10a"), ("945", "9b"), ("946", "10a"), ("947", "10a"),
  ("948", "10a"), ("949", "9b"), ("950", "9b"), ("951", "9b"),
  ("952", "9b"), ("953", "9b"), ("954", "9b"), ("955", "9b"),
  ("956", "9b"), ("957", "9b"), ("958", "9b"), ("959", "9b"),
  ("960", "9a"), ("961", "6b"), ("962", "7b"), ("963", "8b"),
  ("964", "9b"), ("965", "10b"), ("966", "11b"), ("967", "12b"),
  ("968", "12b"), ("969", "10b"), ("970", "8b"), ("971", "8b"),
  ("972", "9a"), ("973", "8b"), ("974", "8b"), ("975", "8b"),
  ("976", "6b"), ("977", "6b"), ("978", "6b"), ("979", "6b"),
  ("980", "8b"), ("981", "9a"), ("982", "8b"), ("983", "8b"),
  ("984", "8b"), ("985", "8b"), ("986", "8b"), ("987", "7b"),
  ("988", "7a"), ("989", "7a"), ("990", "6b"), ("991", "6b"),
  ("992", "7a"), ("993", "7a"), ("994", "7a"), ("995", "5a"),
  ("996", "4b"), ("997", "2a"), ("998", "7a"), ("999", "7b") ]
/-- `zipCode.substring(0, 3)`. -/
def take3 (s : String) : String := ⟨s.data.take 3⟩

/-- The object returned by the widget's `getZoneFromZip`: the zone code
together with the spread of the matching `ZONE_DATA.zones` entry (spreading
a missing entry contributes nothing, hence the `Option`). -/
structure ZipZoneResult where
  zone : String
  range : Option ZoneRange
deriving DecidableEq

/-- `getZoneFromZip` from the zone-selector widget: look the 3-digit
prefix up in `zipToZone` and join the temperature range for the zone. -/
def getZoneFromZip (zipCode : String) : Option ZipZoneResult :=
  match List.lookup (take3 zipCode) zipToZone with
  | some zoneCode => some { zone := zoneCode, range := List.lookup zoneCode zonesTable }
  | none => none

/-- `getZoneFromLookup` from the lookup test script:
`lookupTable[prefix] || null` over a loaded prefix table (the `||` also
nulls a falsy, i.e. empty, table value). -/
def getZoneFromLookup (lookupTable : List (String × String)) (zipCode : String) :
    Option String :=
  match List.lookup (take3 zipCode) lookupTable with
  | some z => if z = "" then none else some z
  | none => none

/-- A 5-digit numeric ZIP string. -/
def isZip5 (s : String) : Bool := s.length = 5 && s.data.all isDigitC
/-- A two-key example database used by concrete witnesses. -/
def mapleDb : List (String × List String) :=
  [("maple", ["5", "9"]), ("japanese maple", ["5", "8"])]

/-- The contains-tier result used by concrete witnesses. -/
def mapleContainsResult : MatchResult :=
  { zones := ["5", "8"], matchType := MatchType.contains,
    matchedKey := some "japanese maple" }

/-! ### Generic association-list lemmas -/

theorem lookup_mem {α β : Type} [BEq α] [LawfulBEq α] {k : α} {v : β}
    {l : List (α × β)} (h : List.lookup k l = some v) : (k, v) ∈ l := by
  induction l with
  | nil => simp [List.lookup] at h
  | cons p ps ih =>
    rw [List.lookup] at h
    cases hk : k == p.1 with
    | true =>
      rw [hk] at h
      simp only [Option.some.injEq] at h
      have hk' : k = p.1 := eq_of_beq hk
      have hp : (k, v) = p := by
        cases p with
        | mk a b =>
          simp only [Prod.mk.injEq]
          exact ⟨hk', h.symm⟩
      rw [hp]
      exact List.mem_cons_self _ _
    | false =>
      rw [hk] at h
      exact List.mem_cons_of_mem _ (ih h)

theorem lookup_none_iff {α β : Type} [BEq α] [LawfulBEq α] {k : α}
    {l : List (α × β)} : List.lookup k l = none ↔ k ∉ l.map Prod.fst := by
  induction l with
  | nil => simp [List.lookup]
  | cons p ps ih =>
    rw [List.lookup]
    cases hk : k == p.1 with
    | true =>
      have hk' : k = p.1 := eq_of_beq hk
      simp [hk']
    | false =>
      have hne : k ≠ p.1 := fun hh => by simp [hh] at hk
      simp [hne, ih]

theorem lookup_isSome_of_mem_keys {α β : Type} [BEq α] [LawfulBEq α] {k : α}
    {l : List (α × β)} (h : k ∈ l.map Prod.fst) : ∃ v, List.lookup k l = some v := by
  cases hl : List.lookup k l with
  | none => exact absurd (lookup_none_iff.mp hl) (not_not.mpr h)
  | some v => exact ⟨v, rfl⟩

/-! ### C1: prefix-only sensitivity of the zone resolver -/

/-- C1: two 5-digit numeric ZIP strings with the same 3-character prefix
resolve identically: `getZoneFromZip` either returns, for both, the same
zone code paired with that zone's temperature-range entry of the fixed
`zonesTable`, or returns null for both; and `getZoneFromLookup` agrees on
the two ZIPs over any loaded prefix table. -/
theorem resolveZone_depends_only_on_zip_prefix (tbl : List (String × String))
    (z1 z2 : String) (h1 : isZip5 z1 = true) (h2 : isZip5 z2 = true)
    (hp : take3 z1 = take3 z2) :
    ((∃ zc, getZoneFromZip z1 = some ⟨zc, List.lookup zc zonesTable⟩ ∧
        getZoneFromZip z2 = some ⟨zc, List.lookup zc zonesTable⟩) ∨
      (getZoneFromZip z1 = none ∧ getZoneFromZip z2 = none)) ∧
    getZoneFromLookup tbl z1 = getZoneFromLookup tbl z2 := by
  constructor
  · unfold getZoneFromZip
    rw [hp]
    cases List.lookup (take3 z2) zipToZone with
    | none => exact Or.inr ⟨rfl, rfl⟩
    | some zc => exact Or.inl ⟨zc, rfl, rfl⟩
  · unfold getZoneFromLookup
    rw [hp]

/-- Witness for C1 at the concrete pair 90001 / 90099 (prefix "900"),
against the widget's own table for `getZoneFromLookup`. -/
theorem resolveZone_depends_only_on_zip_prefix_witness :
    ((∃ zc, getZoneFromZip "90001" = some ⟨zc, List.lookup zc zonesTable⟩ ∧
        getZoneFromZip "90099" = some ⟨zc, List.lookup zc zonesTable⟩) ∨
      (getZoneFromZip "90001" = none ∧ getZoneFromZip "90099" = none)) ∧
    getZoneFromLookup zipToZone "90001" = getZoneFromLookup zipToZone "90099" :=
  resolveZone_depends_only_on_zip_prefix zipToZone "90001" "90099"
    (by decide) (by decide) (by decide)

/-! ### C7: null exactly on absent prefixes, and no exceptions -/

/-- C7: for a 5-digit numeric ZIP, `getZoneFromZip` returns null exactly
when the 3-digit prefix is not a key of its embedded table, and
`getZoneFromLookup` does the same over any loaded table without falsy
values; both are total functions (the embedding is a plain `match`, no
exceptional exit exists). -/
theorem resolveZone_none_iff_prefix_absent (zip : String) (hz : isZip5 zip = true) :
    (getZoneFromZip zip = none ↔ take3 zip ∉ zipToZone.map Prod.fst) ∧
    ∀ tbl : List (String × String), (∀ p ∈ tbl, p.2 ≠ "") →
      (getZoneFromLookup tbl zip = none ↔ take3 zip ∉ tbl.map Prod.fst) := by
  constructor
  · cases h : List.lookup (take3 zip) zipToZone with
    | none =>
      rw [getZoneFromZip, h]
      simpa using lookup_none_iff.mp h
    | some zc =>
      rw [getZoneFromZip, h]
      simp only [reduceCtorEq, false_iff, not_not]
      exact List.mem_map_of_mem Prod.fst (lookup_mem h)
  · intro tbl htbl
    cases h : List.lookup (take3 zip) tbl with
    | none =>
      rw [getZoneFromLookup, h]
      simpa using lookup_none_iff.mp h
    | some z =>
      have hz' : z ≠ "" := htbl _ (lookup_mem h)
      rw [getZoneFromLookup, h]
      simp only [if_neg hz', reduceCtorEq, false_iff, not_not]
      exact List.mem_map_of_mem Prod.fst (lookup_mem h)

/-- Witness for C7 at ZIP 00000, whose prefix "000" no table covers. -/
theorem resolveZone_none_iff_prefix_absent_witness :
    (getZoneFromZip "00000" = none ↔ take3 "00000" ∉ zipToZone.map Prod.fst) ∧
    ∀ tbl : List (String × String), (∀ p ∈ tbl, p.2 ≠ "") →
      (getZoneFromLookup tbl "00000" = none ↔ take3 "00000" ∉ tbl.map Prod.fst) :=
  resolveZone_none_iff_prefix_absent "00000" (by decide)

/-! ### C9: the two embedded prefix tables disagree -/

/-- C9: a 3-digit prefix keyed by both in-repo copies of the
ZIP-prefix-to-zone table is mapped by them to different zone codes (for
example prefix 750): the two embedded tables differ on their common
domain. -/
theorem zip_tables_disagree_on_common_prefix :
    ∃ p za zb, List.lookup p zipToZone = some za ∧
      List.lookup p zipToZoneAsset = some zb ∧ za ≠ zb :=
  ⟨"750", "8a", "8b", by decide, by decide, by decide⟩
theorem jsWs_false_of_digit {c : Char} (h : isDigitC c = true) : jsWs c = false := by
  simp only [isDigitC, Bool.and_eq_true, decide_eq_true_eq] at h
  simp only [jsWs, Bool.or_eq_false_iff, Bool.and_eq_false_iff, decide_eq_false_iff_not]
  omega

theorem jsToLower_eq_self_of_no_upper {c : Char} (h : c.toNat < 65 ∨ 90 < c.toNat) :
    jsToLower c = c := by
  rw [jsToLower]
  have hnone : List.lookup c lowerPairs = none := by
    rw [lookup_none_iff]
    intro hmem
    obtain ⟨p, hp, hpc⟩ := List.mem_map.mp hmem
    have hb : 65 ≤ p.1.toNat ∧ p.1.toNat ≤ 90 := by
      have : ∀ q ∈ lowerPairs, 65 ≤ q.1.toNat ∧ q.1.toNat ≤ 90 := by decide
      exact this p hp
    rw [hpc] at hb
    omega
  rw [hnone]
  rfl

theorem jsToLower_digit {c : Char} (h : isDigitC c = true) : jsToLower c = c := by
  simp only [isDigitC, Bool.and_eq_true, decide_eq_true_eq] at h
  exact jsToLower_eq_self_of_no_upper (Or.inl (by omega))
theorem map_eq_self_of_fix {f : Char → Char} {l : List Char}
    (h : ∀ c ∈ l, f c = c) : l.map f = l := by
  induction l with
  | nil => rfl
  | cons c cs ih =>
    rw [List.map_cons, h c (List.mem_cons_self _ _),
      ih fun x hx => h x (List.mem_cons_of_mem _ hx)]

theorem removeFirst_eq_self {pat : List Char} {l : List Char}
    (h : hasSubstr pat l = false) : removeFirst pat l = l := by
  induction l with
  | nil => rfl
  | cons c cs ih =>
    rw [hasSubstr, Bool.or_eq_false_iff] at h
    rw [removeFirst, if_neg (by simp [h.1]), ih h.2]

theorem hasSubstr_single_false {c0 : Char} {l : List Char}
    (h : ∀ c ∈ l, c ≠ c0) : hasSubstr [c0] l = false := by
  induction l with
  | nil => rfl
  | cons c cs ih =>
    rw [hasSubstr, Bool.or_eq_false_iff]
    constructor
    · simp [List.isPrefixOf]
      intro hc
      exact absurd hc.symm (h c (List.mem_cons_self _ _))
    · exact ih fun x hx => h x (List.mem_cons_of_mem _ hx)

theorem dropWhile_eq_self_of_none {p : Char → Bool} {l : List Char}
    (h : ∀ c ∈ l, p c = false) : l.dropWhile p = l := by
  cases l with
  | nil => rfl
  | cons c cs =>
    rw [List.dropWhile_cons, if_neg (by simp [h c (List.mem_cons_self _ _)])]

theorem jsTrim_eq_self_of_no_ws {l : List Char} (h : ∀ c ∈ l, jsWs c = false) :
    jsTrim l = l := by
  rw [jsTrim, trimTrail, trimLead]
  rw [dropWhile_eq_self_of_none (fun c hc => h c (List.mem_reverse.mp hc))]
  rw [List.reverse_reverse]
  exact dropWhile_eq_self_of_none h

theorem normalizeZoneEntry_legacy {n : String} (hd : n.data.all isDigitC = true) :
    normalizeZoneEntry ("zone-" ++ n) = n := by
  have hall : ∀ c ∈ n.data, isDigitC c = true := by
    simpa [List.all_eq_true] using hd
  rw [normalizeZoneEntry]
  have hdata : ("zone-" ++ n).data = 'z' :: 'o' :: 'n' :: 'e' :: '-' :: n.data := by
    simp [String.data_append]  -- may need adjusting
  rw [hdata]
  have hlow : lowerStr ('z' :: 'o' :: 'n' :: 'e' :: '-' :: n.data)
      = 'z' :: 'o' :: 'n' :: 'e' :: '-' :: n.data := by
    rw [lowerStr]
    simp only [List.map_cons]
    have hmap : List.map jsToLower n.data = n.data :=
      map_eq_self_of_fix fun c hc => jsToLower_digit (hall c hc)
    rw [hmap]
    rw [show jsToLower 'z' = 'z' from by decide, show jsToLower 'o' = 'o' from by decide,
      show jsToLower 'n' = 'n' from by decide, show jsToLower 'e' = 'e' from by decide,
      show jsToLower '-' = '-' from by decide]
  rw [hlow]
  have h1 : removeFirst "zone".data ('z' :: 'o' :: 'n' :: 'e' :: '-' :: n.data)
      = '-' :: n.data := by
    rw [removeFirst, if_pos (by simp [List.isPrefixOf])]
    rfl
  rw [h1]
  have h2 : removeFirst "-".data ('-' :: n.data) = n.data := by
    rw [removeFirst, if_pos (by simp [List.isPrefixOf])]
    rfl
  rw [h2]
  have h3 : removeFirst " ".data n.data = n.data := by
    apply removeFirst_eq_self
    apply hasSubstr_single_false
    intro c hc hceq
    have := hall c hc
    rw [hceq] at this
    simp [isDigitC] at this
  rw [h3]
  rw [jsTrim_eq_self_of_no_ws (fun c hc => jsWs_false_of_digit (hall c hc))]
theorem map_eq_self_of_fix' {α : Type} {f : α → α} {l : List α}
    (h : ∀ c ∈ l, f c = c) : l.map f = l := by
  induction l with
  | nil => rfl
  | cons c cs ih =>
    rw [List.map_cons, h c (List.mem_cons_self _ _),
      ih fun x hx => h x (List.mem_cons_of_mem _ hx)]

/-- C3: over a legacy-format zones list (elements "zone-" followed by
digits), `normalizeZoneFormat` maps every element to that element
lowercased with the word "zone", the hyphen and spaces stripped (so
"zone-7" becomes "7"); and `needsNormalization` is true exactly when some
element contains "zone" case-insensitively. -/
theorem normalizeZoneFormat_strips_legacy (ns : List String)
    (hd : ∀ n ∈ ns, n.data.all isDigitC = true) :
    normalizeZoneFormat (ns.map fun n => "zone-" ++ n) = ns ∧
    ∀ zs : List String, needsNormalization zs = true ↔
      ∃ z ∈ zs, hasSubstr "zone".data (lowerStr z.data) = true := by
  constructor
  · rw [normalizeZoneFormat, List.map_map]
    exact map_eq_self_of_fix' fun n hn =>
      normalizeZoneEntry_legacy (hd n hn)
  · intro zs
    rw [needsNormalization, List.any_eq_true]
/-- C5: a title whose normalized form is a literal key of the plant
database resolves in the exact tier, whatever the other keys look like:
the contains, partial and botanical tiers are never consulted. -/
theorem lookupZones_exact_precedence (plants : List (String × List String))
    (plantName : String) (zs : List String)
    (h : List.lookup plantName plants = some zs) :
    lookupZones plants plantName =
      some { zones := zs, matchType := MatchType.exact } := by
  rw [lookupZones, h]

/-- Witness for C5: "maple" resolves exact even though the longer key
"japanese maple" also contains it. -/
theorem lookupZones_exact_precedence_witness :
    lookupZones mapleDb "maple" =
      some { zones := ["5", "9"], matchType := MatchType.exact } :=
  lookupZones_exact_precedence mapleDb "maple" ["5", "9"] (by decide)

/-- C8: `analyzeZoneFormat` assigns every zones value exactly one label:
null or empty is `none`; `mixed` holds exactly when some element contains
"zone" case-insensitively and some element does not; `old` and `new` are
the all-or-nothing cases; and the audit on the concrete examples is
["zone-7"] to old, ["7"] to new, ["zone-7", "7"] to mixed. -/
theorem analyzeZoneFormat_total_classification :
    (∀ z : Option (List String),
      (analyzeZoneFormat z = ZoneFormat.none ↔ z = Option.none ∨ z = some []) ∧
      (analyzeZoneFormat z = ZoneFormat.mixed ↔ ∃ l, z = some l ∧
        (∃ a ∈ l, hasSubstr "zone".data (lowerStr a.data) = true) ∧
        (∃ b ∈ l, ¬hasSubstr "zone".data (lowerStr b.data) = true)) ∧
      (analyzeZoneFormat z = ZoneFormat.old ↔ ∃ l, z = some l ∧ l ≠ [] ∧
        ∀ a ∈ l, hasSubstr "zone".data (lowerStr a.data) = true) ∧
      (analyzeZoneFormat z = ZoneFormat.new ↔ ∃ l, z = some l ∧ l ≠ [] ∧
        ∀ a ∈ l, ¬hasSubstr "zone".data (lowerStr a.data) = true)) ∧
    analyzeZoneFormat (some ["zone-7"]) = ZoneFormat.old ∧
    analyzeZoneFormat (some ["7"]) = ZoneFormat.new ∧
    analyzeZoneFormat (some ["zone-7", "7"]) = ZoneFormat.mixed ∧
    analyzeZoneFormat Option.none = ZoneFormat.none := by
  refine ⟨?_, by decide, by decide, by decide, rfl⟩
  intro z
  cases z with
  | none => simp [analyzeZoneFormat]
  | some l =>
    by_cases hl : l = []
    · subst hl
      simp [analyzeZoneFormat]
    · have hlen : ¬l.length = 0 := by simpa using hl
      cases hO : l.any (fun z => hasSubstr "zone".data (lowerStr z.data)) with
      | true =>
        cases hN : l.any (fun z => !hasSubstr "zone".data (lowerStr z.data)) with
        | true =>
          simp only [analyzeZoneFormat, hlen, if_false, hO, hN, Bool.and_self, if_true]
          rw [List.any_eq_true] at hO hN
          refine ⟨iff_of_false (by decide) (by simp [hl]), ?_, ?_, ?_⟩
          · refine iff_of_true (by trivial) ⟨l, rfl, by simpa using hO, ?_⟩
            obtain ⟨b, hb, hbf⟩ := hN
            exact ⟨b, hb, by simpa using hbf⟩
          · refine iff_of_false (by decide) ?_
            rintro ⟨l2, hl2, hne, hall⟩
            injection hl2 with he
            subst he
            obtain ⟨b, hb, hbf⟩ := hN
            exact absurd (hall b hb) (by simpa using hbf)
          · refine iff_of_false (by decide) ?_
            rintro ⟨l2, hl2, hne, hall⟩
            injection hl2 with he
            subst he
            obtain ⟨a, ha, haf⟩ := hO
            exact absurd haf (by simpa using hall a ha)
        | false =>
          simp only [analyzeZoneFormat, hlen, if_false, hO, hN, Bool.and_false, if_true]
          rw [List.any_eq_true] at hO
          rw [List.any_eq_false] at hN
          have hNall : ∀ a ∈ l, hasSubstr "zone".data (lowerStr a.data) = true := by
            intro a ha
            have := hN a ha
            simpa using this
          refine ⟨iff_of_false (by decide) (by simp [hl]), ?_, ?_, ?_⟩
          · refine iff_of_false (by decide) ?_
            rintro ⟨l2, hl2, hsome, hnone⟩
            injection hl2 with he
            subst he
            obtain ⟨b, hb, hbf⟩ := hnone
            exact absurd (hNall b hb) hbf
          · exact iff_of_true (by trivial) ⟨l, rfl, hl, hNall⟩
          · refine iff_of_false (by decide) ?_
            rintro ⟨l2, hl2, hne, hall⟩
            injection hl2 with he
            subst he
            obtain ⟨a, ha, haf⟩ := hO
            exact absurd haf (by simpa using hall a ha)
      | false =>
        rw [List.any_eq_false] at hO
        have hOall : ∀ a ∈ l, hasSubstr "zone".data (lowerStr a.data) = false := by
          intro a ha
          have := hO a ha
          simpa using this
        have hN : l.any (fun z => !hasSubstr "zone".data (lowerStr z.data)) = true := by
          rw [List.any_eq_true]
          obtain ⟨c, hc⟩ := List.exists_mem_of_ne_nil l hl
          exact ⟨c, hc, by simp [hOall c hc]⟩
        have hO' : l.any (fun z => hasSubstr "zone".data (lowerStr z.data)) = false := by
          rw [List.any_eq_false]
          intro a ha
          simp [hOall a ha]
        simp only [analyzeZoneFormat, hlen, if_false, hO', hN, Bool.false_and, if_true]
        refine ⟨iff_of_false (by decide) (by simp [hl]), ?_, ?_, ?_⟩
        · refine iff_of_false (by decide) ?_
          rintro ⟨l2, hl2, hsome, hnone⟩
          injection hl2 with he
          subst he
          obtain ⟨a, ha, haf⟩ := hsome
          exact absurd haf (by simp [hOall a ha])
        · refine iff_of_false (by decide) ?_
          rintro ⟨l2, hl2, hne, hall⟩
          injection hl2 with he
          subst he
          obtain ⟨c, hc⟩ := List.exists_mem_of_ne_nil l hl
          exact absurd (hall c hc) (by simp [hOall c hc])
        · exact iff_of_true (by trivial) ⟨l, rfl, hl, fun a ha => by simp [hOall a ha]⟩

/-- Witness for C3 at the single legacy entry "zone-7". -/
theorem normalizeZoneFormat_strips_legacy_witness :
    normalizeZoneFormat (["7"].map fun n => "zone-" ++ n) = ["7"] ∧
    ∀ zs : List String, needsNormalization zs = true ↔
      ∃ z ∈ zs, hasSubstr "zone".data (lowerStr z.data) = true :=
  normalizeZoneFormat_strips_legacy ["7"] (by decide)
theorem mem_insertByLen {x a : String} {l : List String} :
    x ∈ insertByLen a l ↔ x = a ∨ x ∈ l := by
  induction l with
  | nil => simp [insertByLen]
  | cons b bs ih =>
    rw [insertByLen]
    by_cases h : b.length < a.length
    · simp [h]
    · rw [if_neg h]
      simp only [List.mem_cons, ih]
      tauto

theorem mem_sortByLenDesc {x : String} {l : List String} :
    x ∈ sortByLenDesc l ↔ x ∈ l := by
  induction l with
  | nil => simp [sortByLenDesc]
  | cons a as ih =>
    show x ∈ insertByLen a (sortByLenDesc as) ↔ _
    rw [mem_insertByLen, ih]
    simp

theorem pairwise_insertByLen {a : String} {l : List String}
    (h : List.Pairwise (fun x y => y.length ≤ x.length) l) :
    List.Pairwise (fun x y => y.length ≤ x.length) (insertByLen a l) := by
  induction l with
  | nil => simp [insertByLen]
  | cons b bs ih =>
    rw [List.pairwise_cons] at h
    rw [insertByLen]
    by_cases hb : b.length < a.length
    · rw [if_pos hb]
      rw [List.pairwise_cons]
      constructor
      · intro y hy
        rcases List.mem_cons.mp hy with rfl | hy'
        · omega
        · have := h.1 y hy'
          omega
      · exact List.pairwise_cons.mpr h
    · rw [if_neg hb]
      rw [List.pairwise_cons]
      constructor
      · intro y hy
        rcases mem_insertByLen.mp hy with rfl | hy'
        · omega
        · exact h.1 y hy'
      · exact ih h.2

theorem pairwise_sortByLenDesc {l : List String} :
    List.Pairwise (fun x y => y.length ≤ x.length) (sortByLenDesc l) := by
  induction l with
  | nil => simp [sortByLenDesc]
  | cons a as ih => exact pairwise_insertByLen ih

theorem find?_eq_of_unique_longest {p : String → Bool} {k : String}
    {l : List String}
    (hpair : List.Pairwise (fun x y => y.length ≤ x.length) l)
    (hk : k ∈ l) (hpk : p k = true)
    (hlong : ∀ q ∈ l, p q = true → q ≠ k → q.length < k.length) :
    l.find? p = some k := by
  induction l with
  | nil => simp at hk
  | cons a as ih =>
    rw [List.pairwise_cons] at hpair
    by_cases ha : a = k
    · subst ha
      rw [List.find?_cons_of_pos _ hpk]
    · have hk' : k ∈ as := by
        rcases List.mem_cons.mp hk with h | h
        · exact absurd h.symm ha
        · exact h
      have hpa : p a = false := by
        cases hpa : p a with
        | false => rfl
        | true =>
          have hlt : a.length < k.length :=
            hlong a (List.mem_cons_self _ _) hpa ha
          have hge : k.length ≤ a.length := hpair.1 k hk'
          omega
      rw [List.find?_cons_of_neg _ (by simp [hpa])]
      exact ih hpair.2 hk'
        fun q hq hpq hqk => hlong q (List.mem_cons_of_mem _ hq) hpq hqk
/-- C4: when the normalized title is not itself a key and `k` is the
unique longest database key of length at least 5 contained in the title,
the contains tier returns `k` with its zones (keys are examined in
descending length order, so no shorter qualifying key can shadow it). -/
theorem lookupZones_contains_longest_key (plants : List (String × List String))
    (plantName k : String) (zs : List String)
    (hnk : plantName ∉ plants.map Prod.fst)
    (hzs : List.lookup k plants = some zs)
    (hk5 : 5 ≤ k.length) (hsub : strIncludes plantName k = true)
    (hlong : ∀ q ∈ plants.map Prod.fst, strIncludes plantName q = true →
      5 ≤ q.length → q ≠ k → q.length < k.length) :
    lookupZones plants plantName =
      some { zones := zs, matchType := MatchType.contains, matchedKey := some k } := by
  have hnone : List.lookup plantName plants = none := lookup_none_iff.mpr hnk
  have hkmem : k ∈ plants.map Prod.fst := List.mem_map_of_mem Prod.fst (lookup_mem hzs)
  have hfind : (sortByLenDesc (plants.map Prod.fst)).find?
      (fun key => strIncludes plantName key && 5 ≤ key.length) = some k := by
    apply find?_eq_of_unique_longest pairwise_sortByLenDesc
      (mem_sortByLenDesc.mpr hkmem)
    · simp [hsub, hk5]
    · intro q hq hpq hqk
      rw [mem_sortByLenDesc] at hq
      simp only [Bool.and_eq_true, decide_eq_true_eq] at hpq
      exact hlong q hq hpq.1 hpq.2 hqk
  rw [lookupZones, hnone]
  simp only [hfind, hzs, Option.getD_some]
theorem botanicalScan_none (plants : List (String × List String))
    (sorted : List String) (ws : List String)
    (h : ∀ w ∈ ws, w ∉ botanicalTerms) :
    botanicalScan plants sorted ws = none := by
  induction ws with
  | nil => rfl
  | cons w ws ih =>
    rw [botanicalScan]
    rw [if_neg (by simpa using h w (List.mem_cons_self _ _))]
    exact ih fun x hx => h x (List.mem_cons_of_mem _ hx)

theorem botanicalScan_some_inv {plants : List (String × List String)}
    {sorted : List String} {ws : List String} {r : MatchResult}
    (h : botanicalScan plants sorted ws = some r) :
    ∃ w ∈ ws, w ∈ botanicalTerms ∧ r.matchedWord = some w ∧
      ∃ key, sorted.find? (fun key => strIncludes key w) = some key ∧
        r.zones = (List.lookup key plants).getD [] ∧
        r.matchedKey = some key ∧ r.matchType = MatchType.botanical := by
  induction ws with
  | nil => simp [botanicalScan] at h
  | cons w ws ih =>
    rw [botanicalScan] at h
    by_cases hw : botanicalTerms.contains w
    · rw [if_pos hw] at h
      cases hf : sorted.find? (fun key => strIncludes key w) with
      | some key =>
        rw [hf] at h
        simp only [Option.some.injEq] at h
        refine ⟨w, List.mem_cons_self _ _, by simpa using hw, ?_, key, hf, ?_, ?_, ?_⟩ <;>
          simp [← h]
      | none =>
        rw [hf] at h
        obtain ⟨w', hw', rest⟩ := ih h
        exact ⟨w', List.mem_cons_of_mem _ hw', rest⟩
    · rw [if_neg hw] at h
      obtain ⟨w', hw', rest⟩ := ih h
      exact ⟨w', List.mem_cons_of_mem _ hw', rest⟩
/-- C6: the botanical tier only ever fires on a word of the title longer
than 4 characters that belongs to the fixed allow-list (first conjunct);
hence a title failing the exact, contains and partial tiers and containing
no allow-listed word longer than 4 characters resolves to null (second
conjunct). -/
theorem lookupZones_botanical_allowlist (plants : List (String × List String))
    (plantName : String) :
    (∀ r, lookupZones plants plantName = some r →
      r.matchType = MatchType.botanical →
      ∃ w, w ∈ (splitWords plantName).filter (fun w => 4 < w.length) ∧
        w ∈ botanicalTerms ∧ r.matchedWord = some w) ∧
    (plantName ∉ plants.map Prod.fst →
      (∀ q ∈ plants.map Prod.fst, ¬(strIncludes plantName q = true ∧ 5 ≤ q.length)) →
      (∀ q ∈ plants.map Prod.fst, ¬(strIncludes q plantName = true ∧ 6 ≤ plantName.length)) →
      (∀ w ∈ splitWords plantName, 4 < w.length → w ∉ botanicalTerms) →
      lookupZones plants plantName = none) := by
  constructor
  · intro r hr hbot
    rw [lookupZones] at hr
    cases hx : List.lookup plantName plants with
    | some zs =>
      rw [hx] at hr
      simp only [Option.some.injEq] at hr
      rw [← hr] at hbot
      simp at hbot
    | none =>
      rw [hx] at hr
      simp only [] at hr
      cases hc : (sortByLenDesc (plants.map Prod.fst)).find?
          (fun key => strIncludes plantName key && 5 ≤ key.length) with
      | some key =>
        rw [hc] at hr
        simp only [Option.some.injEq] at hr
        rw [← hr] at hbot
        simp at hbot
      | none =>
        rw [hc] at hr
        simp only [] at hr
        cases hp : (plants.map Prod.fst).find?
            (fun key => strIncludes key plantName && 6 ≤ plantName.length) with
        | some key =>
          rw [hp] at hr
          simp only [Option.some.injEq] at hr
          rw [← hr] at hbot
          simp at hbot
        | none =>
          rw [hp] at hr
          obtain ⟨w, hw, hterm, hword, _⟩ := botanicalScan_some_inv hr
          exact ⟨w, hw, hterm, hword⟩
  · intro hnk hcon hpar hbotw
    have hnone : List.lookup plantName plants = none := lookup_none_iff.mpr hnk
    rw [lookupZones, hnone]
    have hc : (sortByLenDesc (plants.map Prod.fst)).find?
        (fun key => strIncludes plantName key && 5 ≤ key.length) = none := by
      rw [List.find?_eq_none]
      intro q hq
      rw [mem_sortByLenDesc] at hq
      simpa using hcon q hq
    have hp : (plants.map Prod.fst).find?
        (fun key => strIncludes key plantName && 6 ≤ plantName.length) = none := by
      rw [List.find?_eq_none]
      intro q hq
      simpa using hpar q hq
    simp only []
    rw [hc]
    simp only []
    rw [hp]
    apply botanicalScan_none
    intro w hw
    have := List.mem_filter.mp hw
    exact hbotw w this.1 (by simpa using this.2)

/-- Witness for C6 on the spec's example "Little Red Shrub", whose
normalized form "little red" has no allow-listed word. -/
theorem lookupZones_botanical_allowlist_witness :
    lookupZones [("rose", ["5"])] (extractPlantName "Little Red Shrub") = none :=
  (lookupZones_botanical_allowlist [("rose", ["5"])]
    (extractPlantName "Little Red Shrub")).2
    (by decide) (by decide) (by decide) (by decide)
/-- C10: every non-null `lookupZones` result carries exactly the zones
list stored in the database under some key `k`: for the exact tier `k` is
the normalized title itself with no `matchedKey`; for the other tiers `k`
is reported in `matchedKey`. The matcher never fabricates zone lists. -/
theorem lookupZones_zones_from_database (plants : List (String × List String))
    (plantName : String) (r : MatchResult)
    (h : lookupZones plants plantName = some r) :
    ∃ k zs, (k, zs) ∈ plants ∧ r.zones = zs ∧
      ((r.matchType = MatchType.exact ∧ k = plantName ∧ r.matchedKey = Option.none) ∨
       (r.matchType ≠ MatchType.exact ∧ r.matchedKey = some k)) := by
  rw [lookupZones] at h
  cases hx : List.lookup plantName plants with
  | some zs =>
    rw [hx] at h
    simp only [Option.some.injEq] at h
    refine ⟨plantName, zs, lookup_mem hx, ?_, Or.inl ⟨?_, rfl, ?_⟩⟩ <;> simp [← h]
  | none =>
    rw [hx] at h
    simp only [] at h
    cases hc : (sortByLenDesc (plants.map Prod.fst)).find?
        (fun key => strIncludes plantName key && 5 ≤ key.length) with
    | some key =>
      rw [hc] at h
      simp only [Option.some.injEq] at h
      have hmem : key ∈ plants.map Prod.fst :=
        mem_sortByLenDesc.mp (List.mem_of_find?_eq_some hc)
      obtain ⟨zs, hzs⟩ := lookup_isSome_of_mem_keys hmem
      refine ⟨key, zs, lookup_mem hzs, ?_, Or.inr ⟨?_, ?_⟩⟩ <;>
        simp [← h, hzs]
    | none =>
      rw [hc] at h
      simp only [] at h
      cases hp : (plants.map Prod.fst).find?
          (fun key => strIncludes key plantName && 6 ≤ plantName.length) with
      | some key =>
        rw [hp] at h
        simp only [Option.some.injEq] at h
        obtain ⟨zs, hzs⟩ := lookup_isSome_of_mem_keys (List.mem_of_find?_eq_some hp)
        refine ⟨key, zs, lookup_mem hzs, ?_, Or.inr ⟨?_, ?_⟩⟩ <;>
          simp [← h, hzs]
      | none =>
        rw [hp] at h
        obtain ⟨w, hw, hterm, hword, key, hkey, hz, hmk, hmt⟩ := botanicalScan_some_inv h
        have hmem : key ∈ plants.map Prod.fst :=
          mem_sortByLenDesc.mp (List.mem_of_find?_eq_some hkey)
        obtain ⟨zs, hzs⟩ := lookup_isSome_of_mem_keys hmem
        refine ⟨key, zs, lookup_mem hzs, ?_, Or.inr ⟨?_, hmk⟩⟩
        · rw [hz, hzs]
          rfl
        · rw [hmt]
          simp

/-- Witness for C10 on a contains-tier lookup. -/
theorem lookupZones_zones_from_database_witness :
    ∃ k zs, (k, zs) ∈ mapleDb ∧ mapleContainsResult.zones = zs ∧
      ((mapleContainsResult.matchType = MatchType.exact ∧
          k = "red japanese maple" ∧ mapleContainsResult.matchedKey = Option.none) ∨
        (mapleContainsResult.matchType ≠ MatchType.exact ∧
          mapleContainsResult.matchedKey = some k)) :=
  lookupZones_zones_from_database mapleDb "red japanese maple"
    mapleContainsResult (by decide)

/-- Witness for C4: both "maple" and "japanese maple" are contained in
"dwarf japanese maple"; the longer key wins. -/
theorem lookupZones_contains_longest_key_witness :
    lookupZones mapleDb "dwarf japanese maple" =
      some { zones := ["5", "8"], matchType := MatchType.contains,
             matchedKey := some "japanese maple" } :=
  lookupZones_contains_longest_key mapleDb "dwarf japanese maple"
    "japanese maple" ["5", "8"] (by decide) (by decide) (by decide)
    (by decide) (by decide)
/-! ### C2 support: canonical form of normalised titles -/

/-- No-adjacent-whitespace relation used below. -/
def noWsPairR (a b : Char) : Prop := ¬(jsWs a = true ∧ jsWs b = true)

/-- Invariant holding of `normalizeTitle` output and preserved by the
suffix pass: all characters are case-fixed, glyph-free, every whitespace
character is a plain space, and no two whitespace characters are
adjacent. -/
structure CanonMid (l : List Char) : Prop where
  lowered : ∀ c ∈ l, jsToLower c = c
  glyphfree : ∀ c ∈ l, tmGlyph c = false
  spaced : ∀ c ∈ l, jsWs c = true → c = ' '
  nopair : List.Chain' noWsPairR l

theorem jsToLower_idem (c : Char) : jsToLower (jsToLower c) = jsToLower c := by
  cases hl : List.lookup c lowerPairs with
  | none =>
    have h0 : jsToLower c = c := by rw [jsToLower, hl]; rfl
    rw [h0, h0]
  | some d =>
    have h0 : jsToLower c = d := by rw [jsToLower, hl]; rfl
    have hmem : (c, d) ∈ lowerPairs := lookup_mem hl
    have hfix : ∀ p ∈ lowerPairs, jsToLower p.2 = p.2 := by decide
    rw [h0]
    exact hfix (c, d) hmem

theorem head?_dropWhile {p : Char → Bool} {l : List Char} :
    ∀ c ∈ (l.dropWhile p).head?, p c = false := by
  induction l with
  | nil => simp
  | cons a as ih =>
    rw [List.dropWhile_cons]
    by_cases h : p a
    · rw [if_pos h]
      exact ih
    · rw [if_neg h]
      intro c hc
      simp only [Option.mem_def, List.head?_cons, Option.some.injEq] at hc
      subst hc
      simpa using h

theorem isPrefix_head? {t l : List Char} (h : t <+: l) :
    t = [] ∨ t.head? = l.head? := by
  cases t with
  | nil => exact Or.inl rfl
  | cons c cs =>
    obtain ⟨r, hr⟩ := h
    right
    rw [← hr]
    rfl

theorem chain'_noWsPair_reverse {l : List Char}
    (h : List.Chain' noWsPairR l) : List.Chain' noWsPairR l.reverse := by
  rw [List.chain'_reverse]
  exact h.imp fun a b hab => fun ⟨x, y⟩ => hab ⟨y, x⟩

theorem chain'_of_append_left {l r : List Char}
    (h : List.Chain' noWsPairR (l ++ r)) : List.Chain' noWsPairR l :=
  (List.chain'_append.mp h).1

theorem chain'_of_append_right {l r : List Char}
    (h : List.Chain' noWsPairR (l ++ r)) : List.Chain' noWsPairR r :=
  (List.chain'_append.mp h).2.1

theorem canonMid_of_prefix {l t : List Char} (hc : CanonMid l) (h : t <+: l) :
    CanonMid t := by
  obtain ⟨r, hr⟩ := h
  subst hr
  exact ⟨fun c hcm => hc.lowered c (List.mem_append_left _ hcm),
    fun c hcm => hc.glyphfree c (List.mem_append_left _ hcm),
    fun c hcm => hc.spaced c (List.mem_append_left _ hcm),
    chain'_of_append_left hc.nopair⟩

theorem canonMid_of_suffix {l t : List Char} (hc : CanonMid l) (h : t <:+ l) :
    CanonMid t := by
  obtain ⟨r, hr⟩ := h
  subst hr
  exact ⟨fun c hcm => hc.lowered c (List.mem_append_right _ hcm),
    fun c hcm => hc.glyphfree c (List.mem_append_right _ hcm),
    fun c hcm => hc.spaced c (List.mem_append_right _ hcm),
    chain'_of_append_right hc.nopair⟩

theorem canonMid_reverse {l : List Char} (hc : CanonMid l) : CanonMid l.reverse :=
  ⟨fun c hcm => hc.lowered c (List.mem_reverse.mp hcm),
    fun c hcm => hc.glyphfree c (List.mem_reverse.mp hcm),
    fun c hcm => hc.spaced c (List.mem_reverse.mp hcm),
    chain'_noWsPair_reverse hc.nopair⟩
theorem collapseWsAux_facts (l : List Char) : ∀ b : Bool,
    (∀ c ∈ collapseWsAux b l, jsWs c = true → c = ' ') ∧
    List.Chain' noWsPairR (collapseWsAux b l) ∧
    (b = true → ∀ c ∈ (collapseWsAux b l).head?, jsWs c = false) ∧
    (∀ c ∈ collapseWsAux b l, c = ' ' ∨ c ∈ l) := by
  induction l with
  | nil =>
    intro b
    refine ⟨by simp [collapseWsAux], by simp [collapseWsAux], ?_, by simp [collapseWsAux]⟩
    intro _ c hc
    simp [collapseWsAux] at hc
  | cons a as ih =>
    intro b
    by_cases ha : jsWs a = true
    · have htail := ih true
      cases b with
      | true =>
        rw [show collapseWsAux true (a :: as) = collapseWsAux true as by
          rw [collapseWsAux, if_pos ha, if_pos rfl]]
        refine ⟨htail.1, htail.2.1, fun _ => htail.2.2.1 rfl, ?_⟩
        intro c hc
        rcases htail.2.2.2 c hc with h | h
        · exact Or.inl h
        · exact Or.inr (List.mem_cons_of_mem _ h)
      | false =>
        rw [show collapseWsAux false (a :: as) = ' ' :: collapseWsAux true as by
          rw [collapseWsAux, if_pos ha, if_neg (by simp)]]
        refine ⟨?_, ?_, ?_, ?_⟩
        · intro c hc _
          rcases List.mem_cons.mp hc with rfl | hc'
          · rfl
          · exact htail.1 c hc' (by assumption)
        · rw [List.chain'_cons']
          refine ⟨?_, htail.2.1⟩
          intro y hy
          intro ⟨_, hwy⟩
          have := htail.2.2.1 rfl y hy
          rw [this] at hwy
          exact Bool.false_ne_true hwy
        · intro hfalse
          exact absurd hfalse (by simp)
        · intro c hc
          rcases List.mem_cons.mp hc with rfl | hc'
          · exact Or.inl rfl
          · rcases htail.2.2.2 c hc' with h | h
            · exact Or.inl h
            · exact Or.inr (List.mem_cons_of_mem _ h)
    · have hstep : ∀ b', collapseWsAux b' (a :: as) = a :: collapseWsAux false as := by
        intro b'
        rw [collapseWsAux, if_neg (by simpa using ha)]
      rw [hstep b]
      have htail := ih false
      refine ⟨?_, ?_, ?_, ?_⟩
      · intro c hc hw
        rcases List.mem_cons.mp hc with rfl | hc'
        · exact absurd hw ha
        · exact htail.1 c hc' hw
      · rw [List.chain'_cons']
        refine ⟨?_, htail.2.1⟩
        intro y hy
        intro ⟨hwa, _⟩
        exact ha hwa
      · intro _ c hc
        simp only [Option.mem_def, List.head?_cons, Option.some.injEq] at hc
        subst hc
        simpa using ha
      · intro c hc
        rcases List.mem_cons.mp hc with rfl | hc'
        · exact Or.inr (List.mem_cons_self _ _)
        · rcases htail.2.2.2 c hc' with h | h
          · exact Or.inl h
          · exact Or.inr (List.mem_cons_of_mem _ h)
theorem collapseWsAux_eq_self {l : List Char}
    (hs : ∀ c ∈ l, jsWs c = true → c = ' ')
    (hnp : List.Chain' noWsPairR l) :
    collapseWsAux false l = l ∧
    ((∀ c ∈ l.head?, jsWs c = false) → collapseWsAux true l = l) := by
  induction l with
  | nil => exact ⟨rfl, fun _ => rfl⟩
  | cons a as ih =>
    rw [List.chain'_cons'] at hnp
    have hs' : ∀ c ∈ as, jsWs c = true → c = ' ' :=
      fun c hc => hs c (List.mem_cons_of_mem _ hc)
    have ihs := ih hs' hnp.2
    by_cases ha : jsWs a = true
    · have ha' : a = ' ' := hs a (List.mem_cons_self _ _) ha
      have hhead : ∀ c ∈ as.head?, jsWs c = false := by
        intro c hc
        have := hnp.1 c hc
        rw [noWsPairR] at this
        cases hw : jsWs c with
        | false => rfl
        | true => exact absurd ⟨ha, hw⟩ this
      constructor
      · rw [collapseWsAux, if_pos ha, if_neg (by simp), ihs.2 hhead, ha']
      · intro hh
        have := hh a (by simp)
        rw [this] at ha
        exact absurd ha (by simp)
    · have hstep : ∀ b', collapseWsAux b' (a :: as) = a :: collapseWsAux false as := by
        intro b'
        rw [collapseWsAux, if_neg (by simpa using ha)]
      refine ⟨?_, fun _ => ?_⟩ <;>
        rw [hstep, ihs.1]

theorem collapseWs_eq_self {l : List Char}
    (hs : ∀ c ∈ l, jsWs c = true → c = ' ')
    (hnp : List.Chain' noWsPairR l) : collapseWs l = l :=
  (collapseWsAux_eq_self hs hnp).1
theorem trimLead_eq_self {l : List Char} (h : ∀ c ∈ l.head?, jsWs c = false) :
    trimLead l = l := by
  rw [trimLead]
  cases l with
  | nil => rfl
  | cons a as =>
    rw [List.dropWhile_cons, if_neg (by simp [h a (by simp)])]

theorem trimTrail_eq_self {l : List Char} (h : ∀ c ∈ l.getLast?, jsWs c = false) :
    trimTrail l = l := by
  rw [trimTrail]
  have hrev : ∀ c ∈ l.reverse.head?, jsWs c = false := by
    intro c hc
    rw [List.head?_reverse] at hc
    exact h c hc
  rw [show l.reverse.dropWhile jsWs = l.reverse from trimLead_eq_self hrev]
  exact List.reverse_reverse l

theorem jsTrim_eq_self {l : List Char}
    (hh : ∀ c ∈ l.head?, jsWs c = false)
    (hl : ∀ c ∈ l.getLast?, jsWs c = false) : jsTrim l = l := by
  rw [jsTrim, trimTrail_eq_self hl, trimLead_eq_self hh]

theorem getLast?_dropWhile {p : Char → Bool} {l : List Char} :
    ∀ c ∈ (l.dropWhile p).getLast?, c ∈ l.getLast? := by
  intro c hc
  obtain ⟨pre, hpre⟩ := List.dropWhile_suffix (l := l) p
  have hne : l.dropWhile p ≠ [] := by
    intro hnil
    rw [hnil] at hc
    simp at hc
  rw [← hpre, List.getLast?_append_of_ne_nil _ hne]
  exact hc
theorem canonMid_trimTrail {l : List Char} (hc : CanonMid l) :
    CanonMid (trimTrail l) := by
  rw [trimTrail]
  exact canonMid_reverse
    (canonMid_of_suffix (canonMid_reverse hc) (List.dropWhile_suffix _))

theorem canonMid_jsTrim {l : List Char} (hc : CanonMid l) :
    CanonMid (jsTrim l) := by
  rw [jsTrim, trimLead]
  exact canonMid_of_suffix (canonMid_trimTrail hc) (List.dropWhile_suffix _)

theorem jsTrim_head_not_ws {l : List Char} :
    ∀ c ∈ (jsTrim l).head?, jsWs c = false := by
  rw [jsTrim, trimLead]
  exact head?_dropWhile

theorem jsTrim_getLast_not_ws {l : List Char} :
    ∀ c ∈ (jsTrim l).getLast?, jsWs c = false := by
  rw [jsTrim, trimLead]
  intro c hc
  have h1 : c ∈ (trimTrail l).getLast? := getLast?_dropWhile c hc
  rw [trimTrail, List.getLast?_reverse] at h1
  exact head?_dropWhile c h1

theorem canonMid_collapseWs {l : List Char}
    (hlow : ∀ c ∈ l, jsToLower c = c)
    (hgl : ∀ c ∈ l, tmGlyph c = false) : CanonMid (collapseWs l) := by
  have hfacts := collapseWsAux_facts l false
  refine ⟨?_, ?_, hfacts.1, hfacts.2.1⟩
  · intro c hc
    rcases hfacts.2.2.2 c hc with rfl | hmem
    · decide
    · exact hlow c hmem
  · intro c hc
    rcases hfacts.2.2.2 c hc with rfl | hmem
    · decide
    · exact hgl c hmem

theorem canonMid_normalizeTitle (l : List Char) : CanonMid (normalizeTitle l) := by
  rw [normalizeTitle]
  apply canonMid_jsTrim
  apply canonMid_collapseWs
  · intro c hc
    have hc' := List.mem_of_mem_filter hc
    rw [lowerStr] at hc'
    obtain ⟨x, _, hx⟩ := List.mem_map.mp hc'
    rw [← hx]
    exact jsToLower_idem x
  · intro c hc
    have := List.of_mem_filter hc
    simpa using this
theorem truncAt_isPrefix {L : List Char → Bool} {l t : List Char}
    (h : truncAt L l = some t) : t <+: l := by
  induction l generalizing t with
  | nil =>
    rw [truncAt] at h
    by_cases hL : L []
    · rw [if_pos hL] at h
      cases h
      exact List.prefix_refl []
    · rw [if_neg hL] at h
      cases h
  | cons c cs ih =>
    rw [truncAt] at h
    by_cases hL : L (c :: cs)
    · rw [if_pos hL] at h
      cases h
      exact List.nil_prefix
    · rw [if_neg hL] at h
      cases ht : truncAt L cs with
      | none =>
        rw [ht] at h
        cases h
      | some t' =>
        rw [ht] at h
        simp only [Option.map_some', Option.some.injEq] at h
        rw [← h]
        exact (List.prefix_cons_inj c).mpr (ih ht)
theorem applyPat_isPrefix (L : List Char → Bool) (s : List Char) :
    applyPat L s <+: s := by
  rw [applyPat]
  cases h : truncAt L s with
  | none => exact List.prefix_refl s
  | some t => exact truncAt_isPrefix h

theorem foldl_applyPat_isPrefix (pats : List (List Char → Bool)) :
    ∀ s : List Char, (pats.foldl (fun acc L => applyPat L acc) s) <+: s := by
  induction pats with
  | nil => exact fun s => List.prefix_refl s
  | cons L ps ih =>
    intro s
    rw [List.foldl_cons]
    exact (ih (applyPat L s)).trans (applyPat_isPrefix L s)

theorem suffixPass_isPrefix (s : List Char) : suffixPass s <+: s :=
  foldl_applyPat_isPrefix suffixPatternsL s

theorem normalizeTitle_eq_self {l : List Char} (hc : CanonMid l)
    (hh : ∀ c ∈ l.head?, jsWs c = false)
    (hl : ∀ c ∈ l.getLast?, jsWs c = false) : normalizeTitle l = l := by
  rw [normalizeTitle, lowerStr]
  rw [map_eq_self_of_fix' hc.lowered]
  rw [List.filter_eq_self.mpr (fun c hcm => by simp [hc.glyphfree c hcm])]
  rw [collapseWs_eq_self hc.spaced hc.nopair]
  exact jsTrim_eq_self hh hl

/-- Projection of the one-field `String` structure. -/
theorem data_mk (l : List Char) : (⟨l⟩ : String).data = l := rfl

/-- `extractPlantName` unfolded once (kept as a rewriting equation: the
suffix pass duplicates its argument, so definitional unfolding on open
terms is avoided throughout). -/
theorem extractPlantName_def (title : String) :
    extractPlantName title = ⟨jsTrim (suffixPass (normalizeTitle title.data))⟩ := rfl

/-- The output of `extractPlantName` is normalisation-stable. -/
theorem normalizeTitle_extractPlantName (title : String) :
    normalizeTitle (extractPlantName title).data = (extractPlantName title).data := by
  rw [extractPlantName_def, data_mk]
  have hN : CanonMid (normalizeTitle title.data) := canonMid_normalizeTitle _
  have hpass : CanonMid (suffixPass (normalizeTitle title.data)) :=
    canonMid_of_prefix hN (suffixPass_isPrefix _)
  exact normalizeTitle_eq_self (canonMid_jsTrim hpass)
    jsTrim_head_not_ws jsTrim_getLast_not_ws

set_option maxHeartbeats 1000000 in
theorem extract_tree_tree : extractPlantName "tree tree" = "tree" := by decide

set_option maxHeartbeats 1000000 in
theorem extract_tree : extractPlantName "tree" = "" := by decide

/-- C2 counterexample: `extractPlantName` is not idempotent. On the title
"tree tree" one application strips only the final "tree" (the trailing
tree pattern only matches at the very end), giving "tree"; a second
application strips that too, giving the empty string. -/
theorem extractPlantName_not_idempotent :
    extractPlantName (extractPlantName "tree tree") ≠
      extractPlantName "tree tree" := by
  rw [extract_tree_tree, extract_tree]
  decide

/-- C2 amended: a second application of `extractPlantName` equals
re-running just the suffix-pattern pass followed by `trim()` on the first
application's output. The normalisation stage (lowercasing, trademark
glyph removal, whitespace collapsing, trimming) is idempotent on
`extractPlantName` output, but the ordered suffix-pattern pass is applied
afresh and may strip further trailing suffixes, as in the "tree tree"
counterexample. -/
theorem extractPlantName_twice (title : String) :
    extractPlantName (extractPlantName title) =
      ⟨jsTrim (suffixPass (extractPlantName title).data)⟩ := by
  conv_lhs => rw [extractPlantName_def (extractPlantName title)]
  rw [normalizeTitle_extractPlantName]
